import Mathlib

/-!
Verification development for the raspiscope spectroscopy instrument.

The repository's signal-processing core lives in `src/analysis.py`
(profile extraction, baseline correction, valley detection, reference
matching, acquisition orchestration) and `src/application/camera.py`
(camera/illuminator handshake).  This file gives a shallow embedding of
those routines and proves (or refutes) the specification's claims about
them.

Conventions of the embedding:
* Machine floating-point values are modelled as exact rationals (`ℚ`);
  the real-valued scores of the matcher (which use square roots) are
  modelled in `ℝ`.
* Fallible Python code is modelled with `Option`/`Except`; stateful
  methods are functions `State → State × List Event`, where the event
  list records the messages the method sends (`sendMessage`) in order.
* Iterative loops (`scipy.signal.find_peaks` internals) are embedded as
  structurally recursive functions with an explicit fuel argument; the
  public wrappers supply fuel that dominates the loop bound, so the
  embedded functions compute exactly the loop's result.
-/

namespace Raspiscope

/- The core rational operations are `@[irreducible]` by default, which
blocks `decide`-style evaluation of the embedded functions on concrete
inputs; restore the ordinary reducibility so witnesses can evaluate. -/
attribute [local semireducible] Rat.add Rat.sub Rat.mul Rat.inv

/-! ### numpy primitives used by `analysis.py` -/

/-- Embedding of `numpy.linspace(0.0, 1.0, num = n, endpoint = True)`:
`[0]` for `n = 1`, otherwise the `n` equally spaced points `i / (n-1)`. -/
def npLinspace01 (n : ℕ) : List ℚ :=
  if n = 1 then [0]
  else List.map (fun (i : ℕ) => ((i : ℚ)) / ((n : ℚ) - 1)) (List.range n)

/-- Core of `numpy.interp` for an increasing abscissa list: walk the
`(x, y)` pairs; clamp below the first point and above the last point,
linearly interpolate in between. -/
def npInterpPts (t : ℚ) : List (ℚ × ℚ) → ℚ
  | [] => 0
  | [(_, y)] => y
  | (x1, y1) :: (x2, y2) :: rest =>
    if t ≤ x1 then y1
    else if t ≤ x2 then y1 + (y2 - y1) * (t - x1) / (x2 - x1)
    else npInterpPts t ((x2, y2) :: rest)

/-- Embedding of `numpy.interp(ts, xs, ys)` (increasing `xs`). -/
def npInterp (ts xs ys : List ℚ) : List ℚ :=
  ts.map (fun t => npInterpPts t (xs.zip ys))

/-- Embedding of `ndarray.max()` on a non-empty array (`0` on `[]`,
which the call sites never reach). -/
def listMax : List ℚ → ℚ
  | [] => 0
  | x :: xs => xs.foldl max x

/-- Embedding of `ndarray.min()` on a non-empty array. -/
def listMin : List ℚ → ℚ
  | [] => 0
  | x :: xs => xs.foldl min x

/-- Embedding of `numpy.allclose(a, b)` on scalars:
`|a - b| ≤ atol + rtol * |b|` with `atol = 1e-8`, `rtol = 1e-5`. -/
def npAllClose (a b : ℚ) : Bool :=
  |a - b| ≤ 1 / 100000000 + |b| / 100000

/-- Embedding of `numpy.mean` (division by zero yields `0` on `[]`,
never reached by the call sites). -/
def npMean (l : List ℚ) : ℚ := l.sum / (l.length : ℚ)

/-- Embedding of `numpy.var`, i.e. the square of `numpy.std`:
mean of the squared deviations from the mean. -/
def npVar (l : List ℚ) : ℚ :=
  ((l.map (fun v => (v - npMean l) ^ 2)).sum) / (l.length : ℚ)

/-- Sum of squares of a list (`numpy.linalg.norm` squared,
`numpy.dot(l, l)`). -/
def sumSq (l : List ℚ) : ℚ := (l.map (fun v => v ^ 2)).sum

/-- Embedding of `numpy.dot` on equal-length 1-D arrays. -/
def dotQ (a b : List ℚ) : ℚ := (List.zipWith (· * ·) a b).sum

/-! ### `analysis.py`: resampling and baseline correction -/

/-- Embedding of `Analysis._resample_spectrum(spectrum, target_length)`:
empty input or non-positive target gives `[]`; equal lengths return the
input unchanged; a single sample is broadcast; otherwise piecewise-linear
interpolation over the normalized `[0,1]` axis. -/
def resampleSpectrum (s : List ℚ) (targetLength : ℕ) : List ℚ :=
  if s.length = 0 ∨ targetLength = 0 then []
  else if s.length = targetLength then s
  else if s.length = 1 then List.replicate targetLength (s.headD 0)
  else npInterp (npLinspace01 targetLength) (npLinspace01 s.length) s

/-- Embedding of `Analysis._get_resampled_base_profile(targetLength)` for
an available, non-empty base profile (the `None`/empty cases raise and are
modelled at the call sites). -/
def getResampledBaseProfile (base : List ℚ) (targetLength : ℕ) : List ℚ :=
  if base.length = targetLength then base
  else npInterp (npLinspace01 targetLength) (npLinspace01 base.length) base

/-- Embedding of `Analysis._compute_processed_profile(intensityProfile)`.
Note the orientation of the final subtraction: the source returns
`baseResampled - profile` (baseline minus profile), not
`profile - baseResampled`. -/
def computeProcessedProfile (base : Option (List ℚ)) (profile : List ℚ) :
    List ℚ :=
  if profile.length = 0 then profile
  else
    match base with
    | none => profile
    | some b =>
      if b.length = 0 then profile
      else
        let baseResampled :=
          if b.length ≠ profile.length then
            npInterp (npLinspace01 profile.length) (npLinspace01 b.length) b
          else b
        List.zipWith (fun x y => x - y) baseResampled profile

/-! ### Claim C3 : resampling lengths and identity -/

theorem npLinspace01_length (n : ℕ) : (npLinspace01 n).length = n := by
  unfold npLinspace01
  split
  · simp_all
  · rw [List.length_map, List.length_range]

theorem npInterp_length (ts xs ys : List ℚ) :
    (npInterp ts xs ys).length = ts.length := by
  simp [npInterp]

/-- Claim C3: for every non-empty baseline of length `M` and every target
length `L ≥ 1`, resampling the baseline to `L` yields exactly `L` samples;
consequently baseline subtraction yields a profile of exactly the
profile's length; and resampling any non-empty sequence to its own length
returns it unchanged (exactly, in the rational model). -/
theorem C3_resample_length_and_identity (base : List ℚ) (L : ℕ)
    (hbase : base ≠ []) (hL : 1 ≤ L) :
    (getResampledBaseProfile base L).length = L ∧
    (∀ profile : List ℚ, profile ≠ [] →
      (computeProcessedProfile (some base) profile).length = profile.length) ∧
    (∀ s : List ℚ, s ≠ [] → resampleSpectrum s s.length = s) := by
  refine ⟨?_, ?_, ?_⟩
  · unfold getResampledBaseProfile
    split
    · omega
    · rw [npInterp_length, npLinspace01_length]
  · intro profile hp
    have hplen : profile.length ≠ 0 := by simpa using hp
    have hblen : base.length ≠ 0 := by simpa using hbase
    simp only [computeProcessedProfile, if_neg hplen, if_neg hblen]
    by_cases hne : base.length ≠ profile.length
    · rw [if_pos hne]
      rw [List.length_zipWith, npInterp_length, npLinspace01_length]
      omega
    · rw [if_neg hne]
      rw [List.length_zipWith]
      omega
  · intro s hs
    unfold resampleSpectrum
    have hslen : s.length ≠ 0 := by simpa using hs
    simp [hslen]

/-- Witness for C3 at a concrete baseline and length. -/
theorem C3_resample_length_and_identity_witness :
    (getResampledBaseProfile [100, 50] 3).length = 3 ∧
    resampleSpectrum [1, 2, 3] 3 = [1, 2, 3] := by
  refine ⟨(C3_resample_length_and_identity [100, 50] 3 (by decide)
    (by decide)).1, ?_⟩
  exact (C3_resample_length_and_identity [100, 50] 3 (by decide)
    (by decide)).2.2 [1, 2, 3] (by decide)

/-! ### `scipy.signal.find_peaks` as called by `detectAbsorbanceValleys`

The call is `find_peaks(invertedProfile, height = mean + std/2, distance = 5)`.
`find_peaks` first locates local maxima with plateau handling
(`_local_maxima_1d`), then filters them by the height threshold, then
enforces the minimum horizontal distance (`_select_by_peak_distance`,
highest peak first).  The loops are embedded with explicit fuel; the
wrappers pass fuel that dominates the loop bounds. -/

/-- Inner loop of `_local_maxima_1d`: starting at `j`, advance while
`j < n - 1` and `x[j] = v` (the plateau value); return the first index
where the scan stops. -/
def findAhead (x : List ℚ) (v : ℚ) : ℕ → ℕ → ℕ
  | 0, j => j
  | fuel + 1, j =>
    if j < x.length - 1 ∧ x.getD j 0 = v then findAhead x v fuel (j + 1)
    else j

/-- Main loop of `_local_maxima_1d`: scan `i` from `1` to `n - 2`; on a
strict ascent, find the end of the plateau; if the value after the
plateau is strictly smaller, record the plateau midpoint and resume after
the plateau, else resume at the next sample. -/
def lmScan (x : List ℚ) : ℕ → ℕ → List ℕ
  | 0, _ => []
  | fuel + 1, i =>
    if i < x.length - 1 then
      if x.getD (i - 1) 0 < x.getD i 0 then
        let a := findAhead x (x.getD i 0) x.length (i + 1)
        if x.getD a 0 < x.getD i 0 then
          (i + (a - 1)) / 2 :: lmScan x fuel (a + 1)
        else lmScan x fuel (i + 1)
      else lmScan x fuel (i + 1)
    else []

/-- Embedding of `scipy.signal._peak_finding_utils._local_maxima_1d`. -/
def localMaxima (x : List ℚ) : List ℕ := lmScan x x.length 1

/-- The dynamic height threshold test `x[p] ≥ mean + std/2`, stated in
the exact squared form over `ℚ`: since `std = √var ≥ 0`, the inequality
`mean + √var / 2 ≤ v` holds iff `mean ≤ v` and `var ≤ 4 (v - mean)²`
(see `heightOk_iff_sqrt` below for the proof of this equivalence). -/
def heightOk (v mean variance : ℚ) : Bool :=
  mean ≤ v ∧ variance ≤ 4 * (v - mean) ^ 2

/-- Stable ascending insertion of index `i` into an index list sorted by
`priority` values. -/
def argsortInsert (priority : List ℚ) (i : ℕ) : List ℕ → List ℕ
  | [] => [i]
  | j :: rest =>
    if priority.getD i 0 < priority.getD j 0 then i :: j :: rest
    else j :: argsortInsert priority i rest

/-- Embedding of `numpy.argsort(priority)`: index positions sorted by
ascending priority.  (numpy's default quicksort is unstable on ties;
this embedding is stable.  No claim below depends on tie order: the
distance filter only ever sees at most one peak in the proofs.) -/
def argsort (priority : List ℚ) : List ℕ :=
  (List.range priority.length).foldl
    (fun acc i => argsortInsert priority i acc) []

/-- Left-clearing loop of `_select_by_peak_distance`: `k1` encodes the
current index plus one (`k1 = 0` means Python's `k = -1`, stop); clear
`keep[k]` while the gap to the reference peak is below the distance. -/
def clearLeft (peaks : List ℕ) (d pj : ℕ) : ℕ → List Bool → List Bool
  | 0, keep => keep
  | k + 1, keep =>
    if pj - peaks.getD k 0 < d then clearLeft peaks d pj k (keep.set k false)
    else keep

/-- Right-clearing loop of `_select_by_peak_distance` (with fuel). -/
def clearRight (peaks : List ℕ) (d pj : ℕ) : ℕ → ℕ → List Bool → List Bool
  | 0, _, keep => keep
  | fuel + 1, k, keep =>
    if k < peaks.length ∧ peaks.getD k 0 - pj < d then
      clearRight peaks d pj fuel (k + 1) (keep.set k false)
    else keep

/-- Embedding of `_select_by_peak_distance(peaks, priority, distance)`:
iterate over the peaks from highest to lowest priority; each survivor
clears the neighbours within `distance` on both sides. -/
def selectByPeakDistance (peaks : List ℕ) (priority : List ℚ) (d : ℕ) :
    List Bool :=
  (argsort priority).reverse.foldl
    (fun keep j =>
      if keep.getD j true = false then keep
      else
        clearRight peaks d (peaks.getD j 0) peaks.length (j + 1)
          (clearLeft peaks d (peaks.getD j 0) j keep))
    (List.replicate peaks.length true)

/-- Embedding of `scipy.signal.find_peaks(x, height = mean(x) + std(x)/2,
distance = 5)`: local maxima, then the height filter, then the distance
filter with the surviving heights as priorities. -/
def findPeaks (x : List ℚ) : List ℕ :=
  let maxima := localMaxima x
  let afterHeight :=
    maxima.filter (fun p => heightOk (x.getD p 0) (npMean x) (npVar x))
  let keep :=
    selectByPeakDistance afterHeight
      (afterHeight.map (fun p => x.getD p 0)) 5
  ((afterHeight.zip keep).filter (fun pk => pk.2)).map (fun pk => pk.1)

/-- Embedding of `Analysis.detectAbsorbanceValleys(intensityProfile,
processedProfile)`.  `base` is `self.baseIntensityProfile`; an explicitly
supplied processed profile is used only when its length matches, else it
is recomputed; a numerically flat working profile short-circuits with no
peaks; otherwise the working profile is inverted and fed to
`find_peaks`. -/
def detectAbsorbanceValleys (base : Option (List ℚ)) (profile : List ℚ)
    (processed : Option (List ℚ)) : List ℕ × List ℚ :=
  if profile.length = 0 then ([], profile)
  else
    let workingProfile :=
      match processed with
      | some w =>
        if w.length ≠ profile.length then computeProcessedProfile base profile
        else w
      | none => computeProcessedProfile base profile
    if npAllClose (listMax workingProfile) (listMin workingProfile) then
      ([], workingProfile)
    else
      let invertedProfile :=
        workingProfile.map (fun v => listMax workingProfile - v)
      (findPeaks invertedProfile, workingProfile)

/-- The end-to-end profile of the specification's scenario:
`[100]*20 + [40]*5 + [100]*25`. -/
def scenarioProfile : List ℚ :=
  List.replicate 20 (100 : ℚ) ++ List.replicate 5 40 ++ List.replicate 25 100

/-- The scenario baseline `[100]*50`. -/
def scenarioBaseline : List ℚ := List.replicate 50 (100 : ℚ)

set_option maxRecDepth 100000 in
/-- Claim C1 (evaluation of the code at the failing input): the claim says
the corrected profile equals the profile minus the resampled baseline and
that the end-to-end scenario (baseline `[100]*50`, profile
`[100]*20 + [40]*5 + [100]*25`) detects one peak near index 22.  The code
(`_compute_processed_profile`) instead returns `baseline - profile`, so
the corrected profile is `[0]*20 + [60]*5 + [0]*25` — the negation of the
claimed one — and the pipeline (`detectAbsorbanceValleys` applied exactly
as `performAnalysis` applies it) detects **zero** peaks: after inversion
the absorbance dip is a minimum of the inverted signal, not a maximum.
The third conjunct confirms the specification's intent: feeding the
detector the claimed corrected profile `profile - baseline` yields
exactly one peak at index 22. -/
theorem C1_processed_profile_is_reversed_and_no_peak_detected :
    detectAbsorbanceValleys (some scenarioBaseline) scenarioProfile
      (some (computeProcessedProfile (some scenarioBaseline)
        scenarioProfile)) =
      ([], List.replicate 20 (0 : ℚ) ++ List.replicate 5 60 ++
        List.replicate 25 0) ∧
    computeProcessedProfile (some scenarioBaseline) scenarioProfile ≠
      List.zipWith (fun p b => p - b) scenarioProfile scenarioBaseline ∧
    detectAbsorbanceValleys (some scenarioBaseline) scenarioProfile
      (some (List.zipWith (fun p b => p - b) scenarioProfile
        scenarioBaseline)) =
      ([22], List.replicate 20 (0 : ℚ) ++ List.replicate 5 (-60) ++
        List.replicate 25 0) := by
  refine ⟨by decide, by decide, by decide⟩

/-! ### Claim C4 : a single sharp dip yields exactly one peak, at the dip

Helper lemmas about `foldl max` / `foldl min` and about the spike-shaped
lists that arise from a single-dip profile. -/

theorem le_foldl_max_init (xs : List ℚ) : ∀ a : ℚ, a ≤ xs.foldl max a := by
  induction xs with
  | nil => intro a; exact le_rfl
  | cons x xs ih =>
    intro a
    exact le_trans (le_max_left a x) (ih (max a x))

theorem le_foldl_max_mem (xs : List ℚ) :
    ∀ (a y : ℚ), y ∈ xs → y ≤ xs.foldl max a := by
  induction xs with
  | nil => intro a y hy; cases hy
  | cons x xs ih =>
    intro a y hy
    rcases List.mem_cons.mp hy with h | h
    · subst h
      exact le_trans (le_max_right a y) (le_foldl_max_init xs (max a y))
    · exact ih (max a x) y h

theorem foldl_max_le (xs : List ℚ) :
    ∀ (a b : ℚ), a ≤ b → (∀ y ∈ xs, y ≤ b) → xs.foldl max a ≤ b := by
  induction xs with
  | nil => intro a b hab _; exact hab
  | cons x xs ih =>
    intro a b hab h
    exact ih (max a x) b (max_le hab (h x (List.mem_cons_self x xs)))
      (fun y hy => h y (List.mem_cons_of_mem x hy))

theorem foldl_min_le_init (xs : List ℚ) : ∀ a : ℚ, xs.foldl min a ≤ a := by
  induction xs with
  | nil => intro a; exact le_rfl
  | cons x xs ih =>
    intro a
    exact le_trans (ih (min a x)) (min_le_left a x)

theorem foldl_min_le_mem (xs : List ℚ) :
    ∀ (a y : ℚ), y ∈ xs → xs.foldl min a ≤ y := by
  induction xs with
  | nil => intro a y hy; cases hy
  | cons x xs ih =>
    intro a y hy
    rcases List.mem_cons.mp hy with h | h
    · subst h
      exact le_trans (foldl_min_le_init xs (min a y)) (min_le_right a y)
    · exact ih (min a x) y h

theorem le_foldl_min (xs : List ℚ) :
    ∀ (a b : ℚ), b ≤ a → (∀ y ∈ xs, b ≤ y) → b ≤ xs.foldl min a := by
  induction xs with
  | nil => intro a b hab _; exact hab
  | cons x xs ih =>
    intro a b hab h
    exact ih (min a x) b (le_min hab (h x (List.mem_cons_self x xs)))
      (fun y hy => h y (List.mem_cons_of_mem x hy))

/-- Every element of the single-dip profile is of the form `c` or `c-D`. -/
theorem dip_profile_mem (j k : ℕ) (c D : ℚ) (y : ℚ)
    (hy : y ∈ List.replicate j c ++ (c - D) :: List.replicate k c) :
    y = c ∨ y = c - D := by
  rcases List.mem_append.mp hy with h | h
  · exact Or.inl (List.eq_of_mem_replicate h)
  · rcases List.mem_cons.mp h with h | h
    · exact Or.inr h
    · exact Or.inl (List.eq_of_mem_replicate h)

/-- The maximum of the single-dip profile is the shoulder value `c`. -/
theorem dip_profile_max (j k : ℕ) (c D : ℚ) (hj : 1 ≤ j) (hD : 0 ≤ D) :
    listMax (List.replicate j c ++ (c - D) :: List.replicate k c) = c := by
  obtain ⟨j', rfl⟩ : ∃ j', j = j' + 1 := ⟨j - 1, by omega⟩
  rw [List.replicate_succ, List.cons_append, listMax]
  apply le_antisymm
  · apply foldl_max_le _ _ _ le_rfl
    intro y hy
    rcases dip_profile_mem j' k c D y (by simpa using hy) with h | h
    · exact le_of_eq h
    · rw [h]; linarith
  · exact le_foldl_max_init _ c

/-- The minimum of the single-dip profile is the dip value `c - D`. -/
theorem dip_profile_min (j k : ℕ) (c D : ℚ) (hj : 1 ≤ j) (hD : 0 ≤ D) :
    listMin (List.replicate j c ++ (c - D) :: List.replicate k c) = c - D := by
  obtain ⟨j', rfl⟩ : ∃ j', j = j' + 1 := ⟨j - 1, by omega⟩
  rw [List.replicate_succ, List.cons_append, listMin]
  apply le_antisymm
  · apply foldl_min_le_mem
    simp
  · apply le_foldl_min _ _ _ (by linarith)
    intro y hy
    rcases dip_profile_mem j' k c D y (by simpa using hy) with h | h
    · rw [h]; linarith
    · exact le_of_eq h.symm

/-- Reading the spike list `[0]*j ++ [D] ++ [0]*k` at any index (with the
out-of-range default `0`). -/
theorem spike_getD (j k : ℕ) (D : ℚ) (t : ℕ) :
    (List.replicate j (0 : ℚ) ++ D :: List.replicate k 0).getD t 0 =
      if t = j then D else 0 := by
  rw [List.getD_eq_getElem?_getD, List.getElem?_append]
  simp only [List.length_replicate]
  by_cases ht : t < j
  · rw [if_pos ht, List.getElem?_replicate, if_pos ht]
    simp [Nat.ne_of_lt ht]
  · rw [if_neg ht]
    rcases Nat.lt_or_ge j t with hlt | hge
    · obtain ⟨d, hd⟩ : ∃ d, t - j = d + 1 := ⟨t - j - 1, by omega⟩
      rw [hd]
      simp only [List.getElem?_cons_succ, List.getElem?_replicate]
      have : t ≠ j := by omega
      rw [if_neg this]
      by_cases hdk : d < k <;> simp [hdk]
    · have : t = j := by omega
      subst this
      simp

theorem spike_length (j k : ℕ) (D : ℚ) :
    (List.replicate j (0 : ℚ) ++ D :: List.replicate k 0).length =
      j + k + 1 := by
  simp
  omega

/-- `findAhead` stops immediately after the one-sample plateau at `j`. -/
theorem spike_findAhead (j k : ℕ) (D : ℚ) (hD : D ≠ 0) (fuel : ℕ) :
    findAhead (List.replicate j (0 : ℚ) ++ D :: List.replicate k 0) D fuel
      (j + 1) = j + 1 := by
  cases fuel with
  | zero => rfl
  | succ fuel =>
    rw [findAhead]
    rw [if_neg]
    intro ⟨_, habs⟩
    rw [spike_getD, if_neg (by omega)] at habs
    exact hD habs.symm

/-- `lmScan` returns nothing on a region with no strict ascent. -/
theorem lmScan_no_ascent (x : List ℚ) :
    ∀ (fuel s : ℕ),
      (∀ u, s ≤ u → u < x.length - 1 → ¬ x.getD (u - 1) 0 < x.getD u 0) →
      lmScan x fuel s = [] := by
  intro fuel
  induction fuel with
  | zero => intro s _; rfl
  | succ fuel ih =>
    intro s h
    rw [lmScan]
    by_cases hs : s < x.length - 1
    · rw [if_pos hs, if_neg (h s le_rfl hs)]
      exact ih (s + 1) (fun u hu => h u (by omega))
    · rw [if_neg hs]

/-- Scanning the spike list from any start position in `[1, j]` finds
exactly the peak at `j`. -/
theorem spike_lmScan (j k : ℕ) (D : ℚ) (hD : 0 < D) (hj : 1 ≤ j)
    (hk : 1 ≤ k) :
    ∀ (fuel s : ℕ), 1 ≤ s → s ≤ j → j + k + 1 ≤ fuel + s →
      lmScan (List.replicate j (0 : ℚ) ++ D :: List.replicate k 0) fuel s =
        [j] := by
  intro fuel
  induction fuel with
  | zero => intro s _ hsj hfuel; omega
  | succ fuel ih =>
    intro s hs1 hsj hfuel
    have hlen : (List.replicate j (0 : ℚ) ++ D :: List.replicate k 0).length =
        j + k + 1 := spike_length j k D
    rcases Nat.lt_or_ge s j with hlt | hge
    · have g1 : (List.replicate j (0 : ℚ) ++
          D :: List.replicate k 0).getD (s - 1) 0 = 0 := by
        rw [spike_getD, if_neg (by omega)]
      have g2 : (List.replicate j (0 : ℚ) ++
          D :: List.replicate k 0).getD s 0 = 0 := by
        rw [spike_getD, if_neg (by omega)]
      rw [lmScan, if_pos (by omega), g1, g2, if_neg (lt_irrefl 0)]
      exact ih (s + 1) (by omega) (by omega) (by omega)
    · have hsj' : s = j := by omega
      subst hsj'
      have g1 : (List.replicate s (0 : ℚ) ++
          D :: List.replicate k 0).getD (s - 1) 0 = 0 := by
        rw [spike_getD, if_neg (by omega)]
      have g2 : (List.replicate s (0 : ℚ) ++
          D :: List.replicate k 0).getD s 0 = D := by
        rw [spike_getD, if_pos rfl]
      have g3 : findAhead (List.replicate s (0 : ℚ) ++
          D :: List.replicate k 0) D
          (List.replicate s (0 : ℚ) ++ D :: List.replicate k 0).length
          (s + 1) = s + 1 :=
        spike_findAhead s k D (ne_of_gt hD) _
      have g4 : (List.replicate s (0 : ℚ) ++
          D :: List.replicate k 0).getD (s + 1) 0 = 0 := by
        rw [spike_getD, if_neg (by omega)]
      rw [lmScan, if_pos (by omega), g1, g2, if_pos hD, g3]
      simp only [g4]
      rw [if_pos hD]
      have hmid : (s + (s + 1 - 1)) / 2 = s := by omega
      rw [hmid, lmScan_no_ascent]
      intro u hu _
      have hu2 : ¬ u = s := by omega
      rw [spike_getD, spike_getD]
      by_cases huj : u - 1 = s
      · rw [if_pos huj, if_neg hu2]
        exact not_lt.mpr (le_of_lt hD)
      · rw [if_neg huj, if_neg hu2]
        exact lt_irrefl 0

/-- The squared form used in `heightOk` is exactly the threshold test
`mean + std/2 ≤ v` with `std = √variance`, for any non-negative
variance (as produced by `npVar`). -/
theorem heightOk_iff_sqrt (v mean variance : ℚ) (hvar : 0 ≤ variance) :
    heightOk v mean variance = true ↔
      (mean : ℝ) + Real.sqrt (variance : ℝ) / 2 ≤ (v : ℝ) := by
  simp only [heightOk, decide_eq_true_eq]
  constructor
  · rintro ⟨h1, h2⟩
    have hvm : (0 : ℝ) ≤ (v : ℝ) - (mean : ℝ) := by
      have : (mean : ℝ) ≤ (v : ℝ) := by exact_mod_cast h1
      linarith
    have hsq : Real.sqrt (variance : ℝ) ≤ 2 * ((v : ℝ) - (mean : ℝ)) := by
      have h2' : (variance : ℝ) ≤ (2 * ((v : ℝ) - (mean : ℝ))) ^ 2 := by
        have : (variance : ℝ) ≤ ((4 : ℚ) * (v - mean) ^ 2 : ℚ) := by
          exact_mod_cast h2
        push_cast at this
        nlinarith [this]
      calc Real.sqrt (variance : ℝ) ≤
          Real.sqrt ((2 * ((v : ℝ) - (mean : ℝ))) ^ 2) :=
            Real.sqrt_le_sqrt h2'
        _ = |2 * ((v : ℝ) - (mean : ℝ))| := Real.sqrt_sq_eq_abs _
        _ = 2 * ((v : ℝ) - (mean : ℝ)) := abs_of_nonneg (by linarith)
    linarith
  · intro h
    have hs0 : (0 : ℝ) ≤ Real.sqrt (variance : ℝ) := Real.sqrt_nonneg _
    have h1 : (mean : ℝ) ≤ (v : ℝ) := by linarith
    have h1' : mean ≤ v := by exact_mod_cast h1
    refine ⟨h1', ?_⟩
    have hsq : Real.sqrt (variance : ℝ) ≤ 2 * ((v : ℝ) - (mean : ℝ)) := by
      linarith
    have hvarR : (variance : ℝ) ≤ 4 * ((v : ℝ) - (mean : ℝ)) ^ 2 := by
      have := Real.sq_sqrt (by exact_mod_cast hvar : (0 : ℝ) ≤ (variance : ℝ))
      nlinarith [this, hsq, hs0]
    exact_mod_cast hvarR

/-- The sum of the spike list is `D`. -/
theorem spike_sum (j k : ℕ) (D : ℚ) :
    (List.replicate j (0 : ℚ) ++ D :: List.replicate k 0).sum = D := by
  simp

/-- The spike's one nonzero sample passes the dynamic height threshold
`mean + std/2` (stated via the exact squared test `heightOk`). -/
theorem spike_heightOk (j k : ℕ) (D : ℚ) (hj : 1 ≤ j) (hk : 1 ≤ k)
    (hD : 0 < D) :
    heightOk D
      (npMean (List.replicate j (0 : ℚ) ++ D :: List.replicate k 0))
      (npVar (List.replicate j (0 : ℚ) ++ D :: List.replicate k 0)) =
      true := by
  have hlen : (List.replicate j (0 : ℚ) ++ D :: List.replicate k 0).length =
      j + k + 1 := spike_length j k D
  have hN3 : (3 : ℚ) ≤ ((j + k + 1 : ℕ) : ℚ) := by
    have : (3 : ℕ) ≤ j + k + 1 := by omega
    exact_mod_cast this
  have hN0 : (0 : ℚ) < ((j + k + 1 : ℕ) : ℚ) := by linarith
  set N : ℚ := ((j + k + 1 : ℕ) : ℚ) with hNdef
  have hmean :
      npMean (List.replicate j (0 : ℚ) ++ D :: List.replicate k 0) = D / N := by
    rw [npMean, spike_sum, hlen]
  have hq : ((j + k : ℕ) : ℚ) = N - 1 := by
    rw [hNdef]
    push_cast
    ring
  have hvar :
      npVar (List.replicate j (0 : ℚ) ++ D :: List.replicate k 0) =
        (((j + k : ℕ) : ℚ) * (0 - D / N) ^ 2 + (D - D / N) ^ 2) / N := by
    rw [npVar, hmean, hlen]
    congr 1
    rw [List.map_append, List.map_cons, List.map_replicate,
      List.map_replicate, List.sum_append, List.sum_cons,
      List.sum_replicate, List.sum_replicate, nsmul_eq_mul, nsmul_eq_mul]
    push_cast
    ring
  rw [hmean, hvar, hq]
  simp only [heightOk, decide_eq_true_eq]
  refine ⟨div_le_self (le_of_lt hD) (by linarith), ?_⟩
  have hNne : N ≠ 0 := ne_of_gt hN0
  rw [div_le_iff₀ hN0]
  have key : (0 : ℚ) ≤ D ^ 2 * ((N - 1) * (N * (4 * N - 5))) :=
    mul_nonneg (sq_nonneg D)
      (mul_nonneg (by linarith)
        (mul_nonneg (le_of_lt hN0) (by linarith)))
  have e1 : (0 - D / N) ^ 2 = D ^ 2 / N ^ 2 := by
    field_simp
  have e2 : (D - D / N) ^ 2 = (D * (N - 1)) ^ 2 / N ^ 2 := by
    field_simp
    ring
  have hN2 : (0 : ℚ) < N ^ 2 := by positivity
  rw [e1, e2]
  have e3 : (N - 1) * (D ^ 2 / N ^ 2) + (D * (N - 1)) ^ 2 / N ^ 2 =
      ((N - 1) * D ^ 2 + (D * (N - 1)) ^ 2) / N ^ 2 := by ring
  have e4 : 4 * ((D * (N - 1)) ^ 2 / N ^ 2) * N =
      (4 * (D * (N - 1)) ^ 2 * N) / N ^ 2 := by ring
  rw [e3, e4, div_le_div_iff_of_pos_right hN2]
  nlinarith [key]

/-- With no baseline available, the processed profile is the profile
itself (`_compute_processed_profile` early return). -/
theorem computeProcessedProfile_none (P : List ℚ) :
    computeProcessedProfile none P = P := by
  unfold computeProcessedProfile
  split <;> rfl

/-- The distance filter keeps a lone peak. -/
theorem selectByPeakDistance_singleton (p : ℕ) (q : ℚ) (d : ℕ) :
    selectByPeakDistance [p] [q] d = [true] := rfl

/-- `find_peaks` on the spike returns exactly the spike position. -/
theorem spike_findPeaks (j k : ℕ) (D : ℚ) (hj : 1 ≤ j) (hk : 1 ≤ k)
    (hD : 0 < D) :
    findPeaks (List.replicate j (0 : ℚ) ++ D :: List.replicate k 0) = [j] := by
  have hlm : localMaxima (List.replicate j (0 : ℚ) ++
      D :: List.replicate k 0) = [j] := by
    rw [localMaxima]
    exact spike_lmScan j k D hD hj hk _ 1 le_rfl hj
      (by rw [spike_length]; omega)
  have hget : (List.replicate j (0 : ℚ) ++
      D :: List.replicate k 0).getD j 0 = D := by
    rw [spike_getD, if_pos rfl]
  have hhk := spike_heightOk j k D hj hk hD
  simp only [findPeaks, hlm, List.filter_cons, List.filter_nil, hget, hhk,
    eq_self_iff_true, if_true, List.map_cons, List.map_nil,
    selectByPeakDistance_singleton]
  rfl

/-- Unfolding of the valley detector in the no-baseline, non-flat case. -/
theorem detectAbsorbanceValleys_none_eq (P : List ℚ) (h : P.length ≠ 0)
    (hflat : npAllClose (listMax P) (listMin P) = false) :
    detectAbsorbanceValleys none P none =
      (findPeaks (P.map (fun v => listMax P - v)), P) := by
  rw [detectAbsorbanceValleys, if_neg h]
  simp only [computeProcessedProfile_none, hflat, Bool.false_eq_true,
    if_false]

set_option maxHeartbeats 800000 in
/-- Claim C4: for every synthetic profile consisting of a single
one-sample sharp dip of depth `D` at an interior index `j` on a constant
shoulder `c` (with `j ≥ 1` shoulder samples on the left and `k ≥ 1` on
the right), with `D ≥ 1` well above the dynamic threshold and physical
intensities `0 ≤ c - D`, `c ≤ 255`, `detectAbsorbanceValleys` (with no
baseline, so the working profile is the profile itself) returns exactly
one detected peak index, at the dip index `j`.  The hypotheses `D ≥ 1`
and `c ≤ 255` rule out the `numpy.allclose` flatness short-circuit; the
dynamic height threshold `mean + std/2` and the 5-sample spacing rule are
then satisfied automatically by a lone spike (`spike_heightOk`). -/
theorem C4_single_sharp_dip_yields_one_peak_at_dip (j k : ℕ) (c D : ℚ)
    (hj : 1 ≤ j) (hk : 1 ≤ k) (hD : 1 ≤ D) (hcD : 0 ≤ c - D)
    (hc : c ≤ 255) :
    detectAbsorbanceValleys none
        (List.replicate j c ++ (c - D) :: List.replicate k c) none =
      ([j], List.replicate j c ++ (c - D) :: List.replicate k c) := by
  set P := List.replicate j c ++ (c - D) :: List.replicate k c with hP
  have hPlen : P.length = j + k + 1 := by
    rw [hP]
    simp
    omega
  have hPne : P.length ≠ 0 := by omega
  have hmax : listMax P = c := dip_profile_max j k c D hj (by linarith)
  have hmin : listMin P = c - D := dip_profile_min j k c D hj (by linarith)
  have hflat : npAllClose (listMax P) (listMin P) = false := by
    rw [hmax, hmin]
    simp only [npAllClose, decide_eq_false_iff_not, not_le]
    have h1 : c - (c - D) = D := by ring
    rw [h1, abs_of_nonneg (by linarith : (0 : ℚ) ≤ D), abs_of_nonneg hcD]
    linarith
  have hinv : P.map (fun v => listMax P - v) =
      List.replicate j (0 : ℚ) ++ D :: List.replicate k 0 := by
    rw [hmax, hP, List.map_append, List.map_cons, List.map_replicate,
      List.map_replicate]
    have e0 : c - c = 0 := by ring
    have e1 : c - (c - D) = D := by ring
    rw [e0, e1]
  rw [detectAbsorbanceValleys_none_eq P hPne hflat, hinv,
    spike_findPeaks j k D hj hk (by linarith)]

/-- Witness for C4: the dip `[100]*20 ++ [40] ++ [100]*25` (depth 60 at
index 20) yields exactly the peak index 20. -/
theorem C4_single_sharp_dip_yields_one_peak_at_dip_witness :
    detectAbsorbanceValleys none
        (List.replicate 20 (100 : ℚ) ++ (100 - 60) ::
          List.replicate 25 100) none =
      ([20], List.replicate 20 (100 : ℚ) ++ (100 - 60) ::
        List.replicate 25 100) :=
  C4_single_sharp_dip_yields_one_peak_at_dip 20 25 100 60 (by decide)
    (by decide) (by decide) (by decide) (by decide)

/-! ### Reference-spectrum store (`onStart` loading, `_parse_reference_spectrum`,
`_store_reference_spectrum`)

The CSV file is modelled at the record level: a file is a list of rows,
each row holding the parsed content of its fields (`none` models a
missing or empty — falsy — field).  The serialized spectrum field is
modelled by the outcome of its two parsing routes in
`_parse_reference_spectrum`: a JSON numeric array, a
whitespace/semicolon-delimited token list, or a string on which both
routes fail. -/

/-- The serialized `spectrum_values`/`spectrum` CSV field, by parse shape. -/
inductive SerializedSpectrum
  | jsonList (values : List ℚ)
  | tokenList (values : List ℚ)
  | malformed

/-- A record of the reference-spectra CSV file. -/
structure CsvRow where
  substance : Option String
  ion_state : Option String
  source : Option String
  captured_at : Option String
  pixel_to_nm_factor : Option ℚ
  pixel_to_nm_offset : Option ℚ
  spectrum_length : Option ℕ
  spectrum_values : Option SerializedSpectrum
  spectrum : Option SerializedSpectrum
  wavelength : Option String

/-- An in-memory reference spectrum entry (`self.referenceSpectra` item). -/
structure RefEntry where
  substance : String
  ion_state : String
  source : String
  captured_at : String
  pixel_to_nm_factor : Option ℚ
  pixel_to_nm_offset : Option ℚ
  spectrum : List ℚ
deriving DecidableEq

/-- Embedding of `Analysis._parse_reference_spectrum`: a JSON list of
numbers parses as-is (an empty JSON list yields an empty array, discarded
by the caller); otherwise fall back to float tokens, `None` when no token
parses; anything else is `None`. -/
def parseReferenceSpectrum : SerializedSpectrum → Option (List ℚ)
  | .jsonList vs => some vs
  | .tokenList vs => if vs = [] then none else some vs
  | .malformed => none

/-- One iteration of the `onStart` loading loop: skip rows without a
(non-empty) `spectrum_values`/`spectrum` field (legacy single-peak rows
are logged and skipped here), skip rows whose spectrum parses empty or
invalid, otherwise build the in-memory entry.  `cfgFactor`/`cfgOffset`
are the `pixel_to_nm_factor`/`pixel_to_nm_offset` configuration defaults
used by `_safe_float`. -/
def parseReferenceRow (cfgFactor cfgOffset : Option ℚ) (row : CsvRow) :
    Option RefEntry :=
  match row.spectrum_values.orElse (fun _ => row.spectrum) with
  | none => none
  | some raw =>
    match parseReferenceSpectrum raw with
    | none => none
    | some vs =>
      if vs = [] then none
      else
        some
          { substance := row.substance.getD "Unknown"
            ion_state := row.ion_state.getD ""
            source := row.source.getD ""
            captured_at := row.captured_at.getD ""
            pixel_to_nm_factor := row.pixel_to_nm_factor.orElse
              (fun _ => cfgFactor)
            pixel_to_nm_offset := row.pixel_to_nm_offset.orElse
              (fun _ => cfgOffset)
            spectrum := vs }

/-- The body of the `onStart` loading loop over all rows. -/
def loadReferenceRows (cfgFactor cfgOffset : Option ℚ) (rows : List CsvRow) :
    List RefEntry :=
  rows.filterMap (parseReferenceRow cfgFactor cfgOffset)

/-- Embedding of `onStart`'s effect on `self.referenceSpectra`: a missing
or unreadable file (`FileNotFoundError` or any other exception) only logs
an error, leaving `referenceSpectra = None`; a readable file (even with
zero usable rows) yields a loaded — possibly empty — list. -/
def onStartLoad (cfgFactor cfgOffset : Option ℚ) :
    Option (List CsvRow) → Option (List RefEntry)
  | none => none
  | some rows => some (loadReferenceRows cfgFactor cfgOffset rows)

/-- The metadata dictionary passed to `_store_reference_spectrum` (built
in `_handleNewSubstanceCapture` with all keys present). -/
structure SpectrumMetadata where
  substance : String
  ion_state : String
  source : String
  captured_at : String
  pixel_to_nm_factor : Option ℚ
  pixel_to_nm_offset : Option ℚ

/-- The CSV record written by `_store_reference_spectrum`: the spectrum is
serialized as a JSON array (`json.dumps` of the float list — exact in the
rational model, as loading applies `float` to each element again); the
`%.6f` decimal formatting of the two affine constants is abstracted (no
claim depends on them). -/
def storeReferenceRow (spectrum : List ℚ) (md : SpectrumMetadata) : CsvRow :=
  { substance := some md.substance
    ion_state := some md.ion_state
    source := some md.source
    captured_at := some md.captured_at
    pixel_to_nm_factor := md.pixel_to_nm_factor
    pixel_to_nm_offset := md.pixel_to_nm_offset
    spectrum_length := some spectrum.length
    spectrum_values := some (.jsonList spectrum)
    spectrum := none
    wavelength := none }

/-- Embedding of the file append performed by `_store_reference_spectrum`
(header bookkeeping and trailing-newline repair operate below the record
level of this model). -/
def storeReferenceSpectrumFile (file : List CsvRow) (spectrum : List ℚ)
    (md : SpectrumMetadata) : List CsvRow :=
  file ++ [storeReferenceRow spectrum md]

/-! ### Claim C5 : store/load round-trip -/

theorem foldl_append_singleton {α β : Type} (g : α → β) :
    ∀ (l : List α) (acc : List β),
      l.foldl (fun f p => f ++ [g p]) acc = acc ++ l.map g := by
  intro l
  induction l with
  | nil => intro acc; simp
  | cons x xs ih =>
    intro acc
    rw [List.foldl_cons, ih, List.map_cons]
    simp

/-- A row written by the store parses back to exactly the appended
substance name and spectrum (for a non-empty spectrum). -/
theorem parse_storeReferenceRow (cfgF cfgO : Option ℚ) (s : List ℚ)
    (md : SpectrumMetadata) (hs : s ≠ []) :
    parseReferenceRow cfgF cfgO (storeReferenceRow s md) =
      some
        { substance := md.substance
          ion_state := md.ion_state
          source := md.source
          captured_at := md.captured_at
          pixel_to_nm_factor := md.pixel_to_nm_factor.orElse (fun _ => cfgF)
          pixel_to_nm_offset := md.pixel_to_nm_offset.orElse (fun _ => cfgO)
          spectrum := s } := by
  simp [parseReferenceRow, storeReferenceRow, parseReferenceSpectrum,
    Option.orElse, hs]

theorem load_map_store (cfgF cfgO : Option ℚ) :
    ∀ items : List (List ℚ × SpectrumMetadata),
      (∀ p ∈ items, p.1 ≠ []) →
      List.Forall₂
        (fun (e : RefEntry) (p : List ℚ × SpectrumMetadata) =>
          e.substance = p.2.substance ∧ e.spectrum = p.1)
        (loadReferenceRows cfgF cfgO
          (items.map (fun p => storeReferenceRow p.1 p.2)))
        items := by
  intro items
  induction items with
  | nil => intro _; simp [loadReferenceRows]
  | cons x xs ih =>
    intro hne
    have hx : x.1 ≠ [] := hne x (List.mem_cons_self x xs)
    rw [List.map_cons, loadReferenceRows, List.filterMap_cons,
      parse_storeReferenceRow cfgF cfgO x.1 x.2 hx]
    exact List.Forall₂.cons ⟨rfl, rfl⟩
      (ih (fun p hp => hne p (List.mem_cons_of_mem x hp)))

/-- Claim C5: appending `N` reference spectra (each a non-empty sequence,
as every caller guarantees) to an initially empty backing file via the
store operation and reloading the database from the file yields exactly
`N` entries whose substance names and spectrum value sequences equal
those appended, in order. -/
theorem C5_reference_store_roundtrip (cfgF cfgO : Option ℚ)
    (items : List (List ℚ × SpectrumMetadata))
    (hne : ∀ p ∈ items, p.1 ≠ []) :
    (loadReferenceRows cfgF cfgO
        (items.foldl
          (fun file p => storeReferenceSpectrumFile file p.1 p.2)
          [])).length = items.length ∧
    List.Forall₂
      (fun (e : RefEntry) (p : List ℚ × SpectrumMetadata) =>
        e.substance = p.2.substance ∧ e.spectrum = p.1)
      (loadReferenceRows cfgF cfgO
        (items.foldl
          (fun file p => storeReferenceSpectrumFile file p.1 p.2)
          []))
      items := by
  have hfold :
      items.foldl (fun file p => storeReferenceSpectrumFile file p.1 p.2)
          [] =
        items.map (fun p => storeReferenceRow p.1 p.2) := by
    simpa [storeReferenceSpectrumFile] using
      foldl_append_singleton
        (fun p : List ℚ × SpectrumMetadata => storeReferenceRow p.1 p.2)
        items []
  rw [hfold]
  have hall := load_map_store cfgF cfgO items hne
  exact ⟨hall.length_eq, hall⟩

/-- Witness for C5 with two concrete stored spectra. -/
theorem C5_reference_store_roundtrip_witness :
    (loadReferenceRows none none
        ([([1, 2], ⟨"Water", "", "", "", none, none⟩),
          ([3], ⟨"Ethanol", "", "", "", none, none⟩)].foldl
          (fun file p => storeReferenceSpectrumFile file p.1 p.2)
          [])).length = 2 :=
  (C5_reference_store_roundtrip none none
    [([1, 2], ⟨"Water", "", "", "", none, none⟩),
      ([3], ⟨"Ethanol", "", "", "", none, none⟩)]
    (by intro p hp; fin_cases hp <;> simp)).1

/-! ### `compareWithReferences`: match scoring and ranking

RMSE and cosine similarity involve square roots, so the scores live in
`ℝ` (the rest of the pipeline stays in `ℚ` and is cast at the boundary).
Python's `list.sort` is stable; `List.insertionSort` with the
non-strict lexicographic order below is stable in the same sense (an
element is inserted before the later-stored elements it ties with). -/

/-- `resampleSpectrum` at the exact input length is the identity (the
equal-length early return; `[]` resamples to `[]`). -/
theorem resampleSpectrum_self (s : List ℚ) :
    resampleSpectrum s s.length = s := by
  unfold resampleSpectrum
  rcases s with _ | ⟨x, xs⟩
  · simp
  · simp

/-- One ranked match of `compareWithReferences`. -/
structure MatchResult where
  substance : String
  ion_state : String
  source : String
  captured_at : String
  rmse : ℝ
  similarity : ℝ

/-- The mean of squared differences (`numpy.mean(numpy.square(diff))`). -/
def mseQ (p r : List ℚ) : ℚ :=
  sumSq (List.zipWith (fun a b => a - b) p r) /
    ((List.zipWith (fun a b => a - b) p r).length : ℚ)

/-- `rmse = sqrt(mean((profile - resampled)^2))`. -/
noncomputable def rmseR (p r : List ℚ) : ℝ := Real.sqrt ((mseQ p r : ℚ) : ℝ)

/-- Cosine similarity `dot / (‖p‖ ‖r‖)`, defined as `0` when the
denominator is zero. -/
noncomputable def similarityR (p r : List ℚ) : ℝ :=
  if Real.sqrt ((sumSq p : ℚ) : ℝ) * Real.sqrt ((sumSq r : ℚ) : ℝ) = 0 then 0
  else ((dotQ p r : ℚ) : ℝ) /
    (Real.sqrt ((sumSq p : ℚ) : ℝ) * Real.sqrt ((sumSq r : ℚ) : ℝ))

/-- The unsorted match list of `compareWithReferences`: skip empty stored
spectra and spectra that resample to empty, score the rest. -/
noncomputable def compareMatches (db : List RefEntry) (processed : List ℚ) :
    List MatchResult :=
  db.filterMap (fun e =>
    if e.spectrum.length = 0 then none
    else
      let aligned := resampleSpectrum e.spectrum processed.length
      if aligned.length = 0 ∨ processed.length = 0 then none
      else
        some
          { substance := e.substance
            ion_state := e.ion_state
            source := e.source
            captured_at := e.captured_at
            rmse := rmseR processed aligned
            similarity := similarityR processed aligned })

/-- The sort key order `(-similarity, rmse)` ascending, i.e. similarity
descending then RMSE ascending. -/
def matchLE (a b : MatchResult) : Prop :=
  b.similarity < a.similarity ∨
    (a.similarity = b.similarity ∧ a.rmse ≤ b.rmse)

instance : IsTrans MatchResult matchLE where
  trans a b c hab hbc := by
    rcases hab with h1 | ⟨h1, h1'⟩ <;> rcases hbc with h2 | ⟨h2, h2'⟩
    · exact Or.inl (lt_trans h2 h1)
    · exact Or.inl (lt_of_le_of_lt (le_of_eq h2.symm) h1)
    · exact Or.inl (lt_of_lt_of_le h2 (le_of_eq h1.symm))
    · exact Or.inr ⟨h1.trans h2, le_trans h1' h2'⟩

instance : IsTotal MatchResult matchLE where
  total a b := by
    rcases lt_trichotomy a.similarity b.similarity with h | h | h
    · exact Or.inr (Or.inl h)
    · rcases le_total a.rmse b.rmse with h' | h'
      · exact Or.inl (Or.inr ⟨h, h'⟩)
      · exact Or.inr (Or.inr ⟨h.symm, h'⟩)
    · exact Or.inl (Or.inl h)

theorem matchLE_refl (a : MatchResult) : matchLE a a :=
  Or.inr ⟨rfl, le_rfl⟩

/-- Python's stable `matches.sort(key = (-similarity, rmse))`. -/
noncomputable def sortMatches (ms : List MatchResult) : List MatchResult :=
  @List.insertionSort _ matchLE (fun _ _ => Classical.propDecidable _) ms

/-- Embedding of `compareWithReferences`' match ranking. -/
noncomputable def compareWithReferences (db : List RefEntry)
    (processed : List ℚ) : List MatchResult :=
  sortMatches (compareMatches db processed)

/-- `identified_substances`: the substances of the top three matches. -/
noncomputable def identifiedSubstances (db : List RefEntry)
    (processed : List ℚ) : List String :=
  ((compareWithReferences db processed).map (fun m => m.substance)).take 3

/-! ### Score lemmas for Claim C2 -/

theorem sumSq_nonneg (l : List ℚ) : 0 ≤ sumSq l := by
  induction l with
  | nil => simp [sumSq]
  | cons x xs ih =>
    rw [sumSq, List.map_cons, List.sum_cons]
    have h1 : (0 : ℚ) ≤ (xs.map (fun v => v ^ 2)).sum := ih
    have h2 := sq_nonneg x
    linarith

theorem dotQ_self (l : List ℚ) : dotQ l l = sumSq l := by
  rw [dotQ, sumSq, List.zipWith_same]
  congr 1
  apply List.map_congr_left
  intro v _
  ring

/-- Cauchy–Schwarz for the embedded dot product and squared norms. -/
theorem dotQ_sq_le (a : List ℚ) : ∀ b : List ℚ,
    (dotQ a b) ^ 2 ≤ sumSq a * sumSq b := by
  induction a with
  | nil =>
    intro b
    simp [dotQ, sumSq]
  | cons x a ih =>
    intro b
    rcases b with _ | ⟨y, b⟩
    · simp [dotQ, sumSq]
    · have hd := ih b
      have hA : 0 ≤ sumSq a := sumSq_nonneg a
      have hB : 0 ≤ sumSq b := sumSq_nonneg b
      rw [dotQ, List.zipWith_cons_cons, List.sum_cons]
      rw [sumSq, List.map_cons, List.sum_cons,
        sumSq, List.map_cons, List.sum_cons]
      have hdot : (List.zipWith (fun a b => a * b) a b).sum = dotQ a b := rfl
      have hsa : (a.map (fun v => v ^ 2)).sum = sumSq a := rfl
      have hsb : (b.map (fun v => v ^ 2)).sum = sumSq b := rfl
      rw [hdot, hsa, hsb]
      rcases eq_or_lt_of_le hA with hA0 | hApos
      · have hd0 : dotQ a b = 0 := by
          have h1 : (dotQ a b) ^ 2 ≤ 0 := by
            rw [← hA0] at hd
            simpa using hd
          have h2 := sq_nonneg (dotQ a b)
          have : (dotQ a b) ^ 2 = 0 := le_antisymm h1 h2
          exact pow_eq_zero_iff (by norm_num) |>.mp this
        rw [hd0, ← hA0]
        nlinarith [sq_nonneg x, sq_nonneg y, mul_nonneg (sq_nonneg x) hB]
      · nlinarith [sq_nonneg (x * dotQ a b - sumSq a * y),
          mul_nonneg (sq_nonneg x)
            (sub_nonneg.mpr hd),
          mul_nonneg (le_of_lt hApos)
            (sub_nonneg.mpr hd),
          mul_pos hApos hApos, hd, hA, hB, sq_nonneg x, sq_nonneg y]

/-- A spectrum matched against itself scores similarity 1 (when it is not
identically zero) and RMSE 0. -/
theorem self_match_scores (s : List ℚ) (hs : sumSq s ≠ 0) :
    similarityR s s = 1 ∧ rmseR s s = 0 := by
  have hA : (0 : ℝ) ≤ ((sumSq s : ℚ) : ℝ) := by
    exact_mod_cast sumSq_nonneg s
  have hAne : ((sumSq s : ℚ) : ℝ) ≠ 0 := by
    exact_mod_cast hs
  constructor
  · rw [similarityR]
    rw [Real.mul_self_sqrt hA]
    rw [if_neg hAne]
    rw [dotQ_self]
    exact div_self hAne
  · rw [rmseR]
    have hz : List.zipWith (fun a b => a - b) s s = s.map (fun _ => 0) := by
      rw [List.zipWith_same]
      congr 1
      funext v
      ring
    have hmse : mseQ s s = 0 := by
      rw [mseQ, hz]
      have : sumSq (s.map (fun _ => (0 : ℚ))) = 0 := by
        induction s with
        | nil => simp [sumSq]
        | cons x xs ih => simpa [sumSq] using ih
      rw [this]
      simp
    rw [hmse]
    simp [Real.sqrt_zero]

/-- Every computed similarity is at most 1, and every RMSE is
non-negative. -/
theorem similarity_le_one (p r : List ℚ) :
    similarityR p r ≤ 1 ∧ 0 ≤ rmseR p r := by
  refine ⟨?_, Real.sqrt_nonneg _⟩
  rw [similarityR]
  split
  · norm_num
  · rename_i hne
    have hA : (0 : ℝ) ≤ ((sumSq p : ℚ) : ℝ) := by
      exact_mod_cast sumSq_nonneg p
    have hB : (0 : ℝ) ≤ ((sumSq r : ℚ) : ℝ) := by
      exact_mod_cast sumSq_nonneg r
    have hden : 0 ≤ Real.sqrt ((sumSq p : ℚ) : ℝ) *
        Real.sqrt ((sumSq r : ℚ) : ℝ) :=
      mul_nonneg (Real.sqrt_nonneg _) (Real.sqrt_nonneg _)
    have hdenpos : 0 < Real.sqrt ((sumSq p : ℚ) : ℝ) *
        Real.sqrt ((sumSq r : ℚ) : ℝ) :=
      lt_of_le_of_ne hden (Ne.symm hne)
    rw [div_le_one hdenpos]
    have hcs : (((dotQ p r : ℚ) : ℝ)) ^ 2 ≤
        ((sumSq p : ℚ) : ℝ) * ((sumSq r : ℚ) : ℝ) := by
      exact_mod_cast dotQ_sq_le p r
    calc ((dotQ p r : ℚ) : ℝ) ≤ |((dotQ p r : ℚ) : ℝ)| := le_abs_self _
      _ = Real.sqrt ((((dotQ p r : ℚ) : ℝ)) ^ 2) :=
          (Real.sqrt_sq_eq_abs _).symm
      _ ≤ Real.sqrt (((sumSq p : ℚ) : ℝ) * ((sumSq r : ℚ) : ℝ)) :=
          Real.sqrt_le_sqrt hcs
      _ = Real.sqrt ((sumSq p : ℚ) : ℝ) * Real.sqrt ((sumSq r : ℚ) : ℝ) :=
          Real.sqrt_mul hA _

theorem sortMatches_sorted (ms : List MatchResult) :
    List.Sorted matchLE (sortMatches ms) :=
  @List.sorted_insertionSort _ matchLE
    (fun _ _ => Classical.propDecidable _) _ _ ms

theorem sortMatches_perm (ms : List MatchResult) :
    (sortMatches ms).Perm ms :=
  @List.perm_insertionSort _ matchLE
    (fun _ _ => Classical.propDecidable _) ms

/-- The match record computed for a reference entry scored against a
processed profile equal to its own spectrum. -/
noncomputable def selfMatch (e : RefEntry) : MatchResult :=
  { substance := e.substance
    ion_state := e.ion_state
    source := e.source
    captured_at := e.captured_at
    rmse := rmseR e.spectrum e.spectrum
    similarity := similarityR e.spectrum e.spectrum }

theorem self_match_mem (db : List RefEntry) (e : RefEntry) (he : e ∈ db)
    (hs : sumSq e.spectrum ≠ 0) :
    selfMatch e ∈ compareMatches db e.spectrum := by
  have hlen : ¬ e.spectrum.length = 0 := by
    intro h0
    apply hs
    have : e.spectrum = [] := List.length_eq_zero.mp h0
    rw [this]
    simp [sumSq]
  apply List.mem_filterMap.mpr
  refine ⟨e, he, ?_⟩
  simp only [if_neg hlen, resampleSpectrum_self]
  rw [if_neg (by simp [hlen])]
  rfl

/-- Every computed match has similarity at most 1 and non-negative
RMSE. -/
theorem mem_compareMatches_bounds (db : List RefEntry) (p : List ℚ)
    (m : MatchResult) (hm : m ∈ compareMatches db p) :
    m.similarity ≤ 1 ∧ 0 ≤ m.rmse := by
  rcases List.mem_filterMap.mp hm with ⟨e, _, hfe⟩
  simp only at hfe
  split_ifs at hfe
  cases hfe
  exact similarity_le_one _ _

/-- Claim C2 (amended): for every stored reference entry whose spectrum
`S` is not identically zero, scoring `S` against itself yields similarity
exactly 1 and RMSE exactly 0, and the top-ranked match of
`compareWithReferences` also has similarity 1 and RMSE 0 — i.e. a
perfect self-match always heads the ranking, though (stable sort) an
earlier-stored entry with an identical score may supply that head in
place of `S`'s own entry. -/
theorem C2_amended_self_match_perfect_and_tops_ranking
    (db : List RefEntry) (e : RefEntry) (he : e ∈ db)
    (hs : sumSq e.spectrum ≠ 0) :
    similarityR e.spectrum e.spectrum = 1 ∧
    rmseR e.spectrum e.spectrum = 0 ∧
    compareWithReferences db e.spectrum ≠ [] ∧
    (∀ m, (compareWithReferences db e.spectrum).head? = some m →
      m.similarity = 1 ∧ m.rmse = 0) := by
  obtain ⟨hsim1, hrmse0⟩ := self_match_scores e.spectrum hs
  have hmem := self_match_mem db e he hs
  have hperm := sortMatches_perm (compareMatches db e.spectrum)
  have hne : compareWithReferences db e.spectrum ≠ [] := by
    intro h0
    rw [compareWithReferences] at h0
    rw [h0] at hperm
    rw [← hperm.mem_iff] at hmem
    cases hmem
  refine ⟨hsim1, hrmse0, hne, ?_⟩
  intro m hm
  rcases hsort : compareWithReferences db e.spectrum with _ | ⟨a, tail⟩
  · exact absurd hsort hne
  · rw [hsort] at hm
    have ham : a = m := by
      simpa using hm
    subst ham
    have hsorted := sortMatches_sorted (compareMatches db e.spectrum)
    rw [← compareWithReferences] at hsorted
    rw [hsort] at hsorted
    have hmem' : selfMatch e ∈ a :: tail := by
      rw [← hsort, compareWithReferences, (sortMatches_perm _).mem_iff]
      exact hmem
    have hrel : matchLE a (selfMatch e) := by
      rcases List.mem_cons.mp hmem' with h | h
      · rw [← h]
        exact matchLE_refl _
      · exact List.rel_of_sorted_cons hsorted _ h
    have hma : a ∈ compareMatches db e.spectrum := by
      rw [← (sortMatches_perm _).mem_iff, ← compareWithReferences, hsort]
      exact List.mem_cons_self a tail
    obtain ⟨hle1, hge0⟩ := mem_compareMatches_bounds db e.spectrum a hma
    have hsm_sim : (selfMatch e).similarity = 1 := hsim1
    have hsm_rmse : (selfMatch e).rmse = 0 := hrmse0
    rcases hrel with h | ⟨h, h'⟩
    · rw [hsm_sim] at h
      linarith
    · rw [hsm_sim] at h
      rw [hsm_rmse] at h'
      exact ⟨h, le_antisymm h' hge0⟩

/-- Witness for the amended C2 at a one-entry database. -/
theorem C2_amended_self_match_perfect_and_tops_ranking_witness :
    similarityR [(1 : ℚ)] [1] = 1 ∧
    rmseR [(1 : ℚ)] [1] = 0 ∧
    compareWithReferences [⟨"Water", "", "", "", none, none, [1]⟩]
      [(1 : ℚ)] ≠ [] := by
  have h := C2_amended_self_match_perfect_and_tops_ranking
    [⟨"Water", "", "", "", none, none, [1]⟩]
    ⟨"Water", "", "", "", none, none, [1]⟩
    (List.mem_cons_self _ _)
    (by norm_num [sumSq])
  exact ⟨h.1, h.2.1, h.2.2.1⟩

/-- A database with two distinct substances sharing the same spectrum. -/
def waterEntry : RefEntry :=
  ⟨"Water", "", "", "", none, none, [1]⟩

/-- Second entry with the same spectrum as `waterEntry`. -/
def ethanolEntry : RefEntry :=
  ⟨"Ethanol", "", "", "", none, none, [1]⟩

/-- The tied match record produced for either entry. -/
noncomputable def tieMatch (name : String) : MatchResult :=
  { substance := name
    ion_state := ""
    source := ""
    captured_at := ""
    rmse := rmseR [1] [1]
    similarity := similarityR [1] [1] }

/-- Claim C2 (counterexample, as stated): take `S = ethanolEntry`'s
spectrum `[1]`, stored in the database after `waterEntry`, which has an
identical spectrum under a different name.  Matching the corrected
profile `S` yields similarity 1 and RMSE 0 for `S`'s entry, yet after
the stable sort the *earlier* tied entry `"Water"` ranks first, so `S`'s
substance `"Ethanol"` does not rank first — refuting the universally
quantified claim. -/
theorem C2_counterexample_earlier_tie_outranks_self :
    ethanolEntry ∈ [waterEntry, ethanolEntry] ∧
    ethanolEntry.spectrum = [1] ∧
    similarityR [(1 : ℚ)] [1] = 1 ∧
    rmseR [(1 : ℚ)] [1] = 0 ∧
    (compareWithReferences [waterEntry, ethanolEntry] [1]).map
      (fun m => m.substance) = ["Water", "Ethanol"] ∧
    identifiedSubstances [waterEntry, ethanolEntry] [1] =
      ["Water", "Ethanol"] := by
  have hscores := self_match_scores [(1 : ℚ)] (by norm_num [sumSq])
  have hcm : compareMatches [waterEntry, ethanolEntry] [1] =
      [tieMatch "Water", tieMatch "Ethanol"] := by
    simp [compareMatches, waterEntry, ethanolEntry, tieMatch,
      resampleSpectrum]
  have hsorted : compareWithReferences [waterEntry, ethanolEntry] [1] =
      [tieMatch "Water", tieMatch "Ethanol"] := by
    rw [compareWithReferences, hcm, sortMatches]
    rw [List.insertionSort, List.insertionSort, List.insertionSort]
    rw [List.orderedInsert, List.orderedInsert]
    have hle : matchLE (tieMatch "Water") (tieMatch "Ethanol") :=
      Or.inr ⟨rfl, le_rfl⟩
    rw [if_pos hle]
  refine ⟨List.mem_cons_of_mem _ (List.mem_cons_self _ _), rfl,
    hscores.1, hscores.2, ?_, ?_⟩
  · rw [hsorted]
    simp [tieMatch]
  · rw [identifiedSubstances, hsorted]
    simp [tieMatch]

/-! ### Acquisition orchestration (`Analysis` state machine)

`Analysis`' mutable state is `calibrationInProgress`,
`baseIntensityProfile`, the new-substance single-flight slot
`_newSubstanceState`, and the in-memory reference list.  Each handler is
a function from state to state plus the ordered list of messages it
sends (`sendMessage` is the out-of-scope pub/sub transport, modelled as
an infallible event emission).  I/O and image processing inside worker
bodies are parametrized by their outcome (`Except`). -/

/-- The `_newSubstanceState` dictionary: substance plus status
(`processing = false` is `"waiting_image"`, `true` is `"processing"`). -/
structure NewSubstanceState where
  substance : String
  processing : Bool
deriving DecidableEq

/-- The mutable fields of the `Analysis` module. -/
structure AnalysisState where
  calibrationInProgress : Bool
  baseIntensityProfile : Option (List ℚ)
  newSubstanceState : Option NewSubstanceState
  referenceSpectra : Option (List RefEntry)
deriving DecidableEq

/-- Messages sent by the `Analysis` handlers (plus the warnings the
claims mention). -/
inductive AnalysisEvent
  | calibrationStarted
  | calibrationCompleted
  | calibrationError (message : String)
  | cameraAnalyze
  | cameraTake
  | newReferenceCapture (status : String) (substance : String)
  | analysisRequested
  | analysisErrorEvt (message : String)
  | logWarning (message : String)
deriving DecidableEq

/-- Embedding of Python's `str.strip()` (over itself-whitespace). -/
def pyStrip (s : String) : String :=
  String.mk
    (((s.toList.dropWhile Char.isWhitespace).reverse.dropWhile
      Char.isWhitespace).reverse)

/-- Embedding of `Analysis.calibrate`: a second request while one is in
flight is a logged no-op; otherwise set the flag, announce the start and
request a camera image.  (`sendMessage` is modelled infallible, so the
`except` arm around the camera request is dead in the model.) -/
def calibrate (s : AnalysisState) : AnalysisState × List AnalysisEvent :=
  if s.calibrationInProgress then
    (s, [.logWarning "Calibration request ignored: already in progress."])
  else
    ({s with calibrationInProgress := true},
      [.calibrationStarted, .cameraAnalyze])

/-- Embedding of `Analysis._performCalibration` (with
`_calibrationFailed` inlined): the extraction and the config persistence
are parametrized by their outcomes.  On success the new baseline is
stored before persistence is attempted (so a persistence failure still
keeps the in-memory baseline, as in the source); every path — the
`finally` — clears `calibrationInProgress`. -/
def performCalibration (s : AnalysisState)
    (extractResult : Except String (List ℚ))
    (persistResult : Except String Unit) :
    AnalysisState × List AnalysisEvent :=
  match extractResult with
  | .error e => ({s with calibrationInProgress := false},
      [.calibrationError e])
  | .ok profile =>
    if profile.length = 0 then
      ({s with calibrationInProgress := false},
        [.calibrationError "Extracted calibration intensity profile is empty."])
    else
      match persistResult with
      | .error e =>
        ({ s with
            baseIntensityProfile := some profile
            calibrationInProgress := false }, [.calibrationError e])
      | .ok _ =>
        ({ s with
            baseIntensityProfile := some profile
            calibrationInProgress := false }, [.calibrationCompleted])

/-- Embedding of `Analysis.newSubstance`: the four rejection conditions
in source order (calibration in flight, blank name, missing baseline,
pending acquisition), else claim the single-flight slot and request a
capture.  The state is threaded explicitly so the theorem can speak
about what a raising call does to it. -/
def newSubstance (s : AnalysisState) (substanceName : Option String) :
    AnalysisState × Except String (List AnalysisEvent) :=
  if s.calibrationInProgress then
    (s, .error "Cannot register new substances while calibration is in progress.")
  else if pyStrip (substanceName.getD "") = "" then
    (s, .error "Substance name must be provided.")
  else if s.baseIntensityProfile = none then
    (s, .error "Base intensity profile not available. Run calibration first.")
  else
    match s.newSubstanceState with
    | some _ =>
      (s, .error "Another new substance acquisition is already in progress.")
    | none =>
      ({ s with
          newSubstanceState := some ⟨pyStrip (substanceName.getD ""), false⟩ },
        .ok [.cameraTake,
          .newReferenceCapture "requested" (pyStrip (substanceName.getD ""))])

/-- The `NewSubstanceName` arm of `handleMessage`: exceptions from
`newSubstance` become an error event. -/
def handleNewSubstanceName (s : AnalysisState)
    (substanceName : Option String) : AnalysisState × List AnalysisEvent :=
  match newSubstance s substanceName with
  | (s', .ok evts) => (s', evts)
  | (s', .error _) =>
    (s', [.newReferenceCapture "error" (pyStrip (substanceName.getD ""))])

/-- Embedding of `Analysis._handleNewSubstanceCapture`: an empty payload
or empty slot returns silently; a frame arriving while already
processing is ignored with a warning; otherwise the slot is marked
processing, the decode/extract/diff/store body runs (parametrized by its
outcome: on success a reference entry is appended to the in-memory list
and a completion event carries wavelength and intensity), and the
`finally` clears the slot on every path. -/
def handleNewSubstanceCapture (s : AnalysisState) (payload : Option Unit)
    (body : Except String (RefEntry × ℚ × ℚ)) :
    AnalysisState × List AnalysisEvent :=
  match payload with
  | none => (s, [])
  | some _ =>
    match s.newSubstanceState with
    | none => (s, [])
    | some st =>
      if st.processing then
        (s, [.logWarning "Ignoring additional camera frame while new substance processing is ongoing."])
      else
        match body with
        | .ok (entry, _, _) =>
          ({ s with
              newSubstanceState := none
              referenceSpectra :=
                some ((s.referenceSpectra.getD []) ++ [entry]) },
            [.newReferenceCapture "completed" st.substance])
        | .error _ =>
          ({ s with
              newSubstanceState := none },
            [.newReferenceCapture "error" st.substance])

/-- Which worker thread the `Analyze` arm spawns. -/
inductive SpawnedWorker
  | calibrationWorker
  | analysisWorker
deriving DecidableEq

/-- Embedding of the `Analyze` arm of `handleMessage`.  The image
argument: `none` is a payload without image data, `some none` an
undecodable image, `some (some ())` a decodable one.  When not
calibrating, an `AnalysisRequested` acknowledgment is sent and a missing
reference database short-circuits with an `AnalysisError`; footnote: when
calibrating, both the acknowledgment and the database check are skipped
and the image is routed to the calibration worker. -/
def handleAnalyze (s : AnalysisState) (image : Option (Option Unit)) :
    AnalysisState × List AnalysisEvent × Option SpawnedWorker :=
  let preEvents :=
    if s.calibrationInProgress then ([] : List AnalysisEvent)
    else [.analysisRequested]
  if s.calibrationInProgress = false ∧ s.referenceSpectra = none then
    (s, preEvents ++
      [.analysisErrorEvt "Cannot analyze: reference data not loaded."], none)
  else
    match image with
    | none =>
      if s.calibrationInProgress then
        ({s with calibrationInProgress := false},
          preEvents ++
            [.analysisErrorEvt "'Analyze' command received without image data.",
             .calibrationError "'Analyze' command received without image data."],
          none)
      else
        (s, preEvents ++
          [.analysisErrorEvt "'Analyze' command received without image data."],
          none)
    | some none =>
      if s.calibrationInProgress then
        ({s with calibrationInProgress := false},
          preEvents ++
            [.analysisErrorEvt "Failed to decode image data for analysis.",
             .calibrationError "Failed to decode image data for analysis."],
          none)
      else
        (s, preEvents ++
          [.analysisErrorEvt "Failed to decode image data for analysis."],
          none)
    | some (some _) =>
      (s, preEvents,
        some (if s.calibrationInProgress then .calibrationWorker
          else .analysisWorker))

/-! ### `Camera.takePicture` (`src/application/camera.py`) -/

/-- The `Camera` module's mutable state used by `takePicture`. -/
structure CameraState where
  cameraOk : Bool
  lightReady : Bool
  manualConfigured : Bool
deriving DecidableEq

/-- Messages and log lines emitted by `takePicture`, in order. -/
inductive CameraEvent
  | lightOn
  | lightOff
  | warnLightTimeout
  | captureAttempt
  | logError (message : String)
deriving DecidableEq

/-- Outcome of `cv2.imencode` on the captured frame. -/
inductive EncodeOutcome
  | raised
  | unsuccessful
  | encoded
deriving DecidableEq

/-- Embedding of `Camera.takePicture`.  `lightAck` is whether the
`TurnedOn` acknowledgment set the readiness event within the bounded
wait (`False` models the timeout, which only logs a warning);
`captureResult` is the outcome of `capture_array` (`none` models a
raised exception, logged and converted to no frame); `encodeResult`
is the outcome of the JPEG encoding.  The capture-exclusivity lock and
the settle sleeps are below this model's level.  Illumination-off and
the readiness-flag clear sit in the `finally` of the capture, so they
run on every path that requested illumination-on. -/
def takePicture (s : CameraState) (lightAck : Bool)
    (captureResult : Option (List ℚ)) (encodeResult : EncodeOutcome) :
    CameraState × List CameraEvent × Option (List ℚ) :=
  if s.cameraOk = false then
    (s, [.logError "Cannot take picture, camera not initialized."], none)
  else
    let afterCapture : CameraState :=
      { s with
          manualConfigured := true
          lightReady := false }
    let events : List CameraEvent :=
      [CameraEvent.lightOn] ++
        (if lightAck then [] else [CameraEvent.warnLightTimeout]) ++
        [CameraEvent.captureAttempt, CameraEvent.lightOff]
    match captureResult with
    | none => (afterCapture, events, none)
    | some frame =>
      match encodeResult with
      | .raised => (afterCapture, events, none)
      | .unsuccessful => (afterCapture, events, none)
      | .encoded => (afterCapture, events, some frame)

/-! ### Claim C7 : calibration is single-flight with guaranteed cleanup -/

/-- Claim C7: starting from any state with no calibration in flight, a
`Calibrate` command sets the in-progress flag and requests a camera
image; a second `Calibrate` while the first is in flight leaves the
state untouched and requests nothing (logged no-op); after the first
completes — whatever the outcomes of profile extraction and of
persistence, success or failure — the flag is cleared back to idle, and
a fresh `Calibrate` is then accepted (flag set and camera image
requested again). -/
theorem C7_calibration_single_flight_guaranteed_cleanup
    (s : AnalysisState) (h : s.calibrationInProgress = false) :
    (calibrate s).1.calibrationInProgress = true ∧
    AnalysisEvent.cameraAnalyze ∈ (calibrate s).2 ∧
    (calibrate (calibrate s).1).1 = (calibrate s).1 ∧
    AnalysisEvent.cameraAnalyze ∉ (calibrate (calibrate s).1).2 ∧
    (∀ (extractResult : Except String (List ℚ))
        (persistResult : Except String Unit),
      (performCalibration (calibrate s).1 extractResult
          persistResult).1.calibrationInProgress = false ∧
      (calibrate (performCalibration (calibrate s).1 extractResult
          persistResult).1).1.calibrationInProgress = true ∧
      AnalysisEvent.cameraAnalyze ∈
        (calibrate (performCalibration (calibrate s).1 extractResult
          persistResult).1).2) := by
  refine ⟨?_, ?_, ?_, ?_, ?_⟩
  · simp [calibrate, h]
  · simp [calibrate, h]
  · simp [calibrate, h]
  · simp [calibrate, h]
  · intro extractResult persistResult
    rcases extractResult with e | profile
    · simp [calibrate, performCalibration, h]
    · by_cases hp : profile.length = 0
      · simp [calibrate, performCalibration, h, hp]
      · rcases persistResult with e | u
        · simp [calibrate, performCalibration, h, hp]
        · simp [calibrate, performCalibration, h, hp]

/-- Witness for C7 at the idle initial state. -/
theorem C7_calibration_single_flight_guaranteed_cleanup_witness :
    (calibrate ⟨false, none, none, none⟩).1.calibrationInProgress = true ∧
    AnalysisEvent.cameraAnalyze ∈ (calibrate ⟨false, none, none, none⟩).2 := by
  have h := C7_calibration_single_flight_guaranteed_cleanup
    ⟨false, none, none, none⟩ rfl
  exact ⟨h.1, h.2.1⟩

/-! ### Claim C8 : new-substance request acceptance conditions -/

/-- Claim C8: a new-substance acquisition request succeeds exactly when
the (stripped) substance name is non-empty, a baseline profile exists,
no calibration is in flight and no other acquisition is pending; on
success the single-flight slot is set to the awaiting-image state for
the stripped name and a camera capture plus a `requested` notification
are sent; on failure the `NewSubstanceName` handler emits an error
event and no capture is requested. -/
theorem C8_new_substance_rejection_iff_and_success_capture
    (s : AnalysisState) (substanceName : Option String) :
    ((newSubstance s substanceName).2.isOk = true ↔
      (s.calibrationInProgress = false ∧
        pyStrip (substanceName.getD "") ≠ "" ∧
        s.baseIntensityProfile ≠ none ∧
        s.newSubstanceState = none)) ∧
    (∀ evts, (newSubstance s substanceName).2 = .ok evts →
      (newSubstance s substanceName).1.newSubstanceState =
        some ⟨pyStrip (substanceName.getD ""), false⟩ ∧
      AnalysisEvent.cameraTake ∈ evts ∧
      AnalysisEvent.newReferenceCapture "requested"
        (pyStrip (substanceName.getD "")) ∈ evts) ∧
    (∀ e, (newSubstance s substanceName).2 = .error e →
      AnalysisEvent.newReferenceCapture "error"
          (pyStrip (substanceName.getD "")) ∈
        (handleNewSubstanceName s substanceName).2 ∧
      AnalysisEvent.cameraTake ∉ (handleNewSubstanceName s substanceName).2) := by
  by_cases hc : s.calibrationInProgress
  · refine ⟨?_, ?_, ?_⟩
    · simp [newSubstance, hc, Except.isOk, Except.toBool]
    · intro evts hevts
      simp [newSubstance, hc] at hevts
    · intro e _
      simp [handleNewSubstanceName, newSubstance, hc]
  · by_cases hn : pyStrip (substanceName.getD "") = ""
    · refine ⟨?_, ?_, ?_⟩
      · simp [newSubstance, hc, hn, Except.isOk, Except.toBool]
      · intro evts hevts
        simp [newSubstance, hc, hn] at hevts
      · intro e _
        simp [handleNewSubstanceName, newSubstance, hc, hn]
    · by_cases hb : s.baseIntensityProfile = none
      · refine ⟨?_, ?_, ?_⟩
        · simp [newSubstance, hc, hn, hb, Except.isOk, Except.toBool]
        · intro evts hevts
          simp [newSubstance, hc, hn, hb] at hevts
        · intro e _
          simp [handleNewSubstanceName, newSubstance, hc, hn, hb]
      · rcases hslot : s.newSubstanceState with _ | st
        · refine ⟨?_, ?_, ?_⟩
          · simp [newSubstance, hc, hn, hb, hslot, Except.isOk,
              Except.toBool]
          · intro evts hevts
            simp only [newSubstance, hc, hn, hb, hslot] at hevts ⊢
            simp at hevts
            simp [hc, hn, hb, hslot, ← hevts]
          · intro e he
            simp [newSubstance, hc, hn, hb, hslot] at he
        · refine ⟨?_, ?_, ?_⟩
          · simp [newSubstance, hc, hn, hb, hslot, Except.isOk,
              Except.toBool]
          · intro evts hevts
            simp [newSubstance, hc, hn, hb, hslot] at hevts
          · intro e _
            simp [handleNewSubstanceName, newSubstance, hc, hn, hb, hslot]

/-- Witness for C8: a ready state accepts a fresh request. -/
theorem C8_new_substance_rejection_iff_and_success_capture_witness :
    (newSubstance ⟨false, some [1], none, none⟩
      (some "Salt")).2.isOk = true :=
  (C8_new_substance_rejection_iff_and_success_capture
    ⟨false, some [1], none, none⟩ (some "Salt")).1.mpr
    ⟨rfl, by decide, by simp, rfl⟩

/-! ### Claim C10 : rejection leaves the single-flight slot untouched -/

/-- Claim C10: whenever `newSubstance` raises — for any of its four
rejection conditions — the state (in particular the pending-acquisition
slot) is exactly what it was before the call, so a rejected second
request never overwrites or clears an outstanding acquisition; and the
outstanding slot is cleared (only) by the completion or failure of its
own image-processing path, whose `finally` empties the slot on both
outcomes. -/
theorem C10_rejection_is_atomic_for_pending_slot
    (s : AnalysisState) (substanceName : Option String) :
    (∀ e, (newSubstance s substanceName).2 = .error e →
      (newSubstance s substanceName).1 = s) ∧
    (∀ (payload : Unit) (st : NewSubstanceState)
        (body : Except String (RefEntry × ℚ × ℚ)),
      s.newSubstanceState = some st → st.processing = false →
      (handleNewSubstanceCapture s (some payload) body).1.newSubstanceState =
        none) := by
  constructor
  · intro e he
    by_cases hc : s.calibrationInProgress
    · simp [newSubstance, hc]
    · by_cases hn : pyStrip (substanceName.getD "") = ""
      · simp [newSubstance, hc, hn]
      · by_cases hb : s.baseIntensityProfile = none
        · simp [newSubstance, hc, hn, hb]
        · rcases hslot : s.newSubstanceState with _ | st
          · simp [newSubstance, hc, hn, hb, hslot] at he
          · simp [newSubstance, hc, hn, hb, hslot]
  · intro payload st body hslot hproc
    rcases body with e | entry
    · simp [handleNewSubstanceCapture, hslot, hproc]
    · simp [handleNewSubstanceCapture, hslot, hproc]

/-- Witness for C10: a rejected request (pending slot occupied) leaves
the state — slot included — unchanged, and the processing path clears
the slot. -/
theorem C10_rejection_is_atomic_for_pending_slot_witness :
    (newSubstance
      ⟨false, some [1], some ⟨"Salt", false⟩, none⟩
      (some "Sugar")).1 =
      ⟨false, some [1], some ⟨"Salt", false⟩, none⟩ ∧
    (handleNewSubstanceCapture
      ⟨false, some [1], some ⟨"Salt", false⟩, none⟩ (some ())
      (.error "decode failed")).1.newSubstanceState = none := by
  have h := C10_rejection_is_atomic_for_pending_slot
    ⟨false, some [1], some ⟨"Salt", false⟩, none⟩ (some "Sugar")
  refine ⟨h.1 _ rfl, ?_⟩
  have h2 := C10_rejection_is_atomic_for_pending_slot
    ⟨false, some [1], some ⟨"Salt", false⟩, none⟩ (some "Sugar")
  exact h2.2 () ⟨"Salt", false⟩ (.error "decode failed") rfl rfl

/-! ### Claim C6 : soft failure of the reference-database load -/

/-- Claim C6 (counterexample, as stated): the claim says a *missing*
reference file also fails soft, leaving an empty database through which
a subsequent `Analyze` proceeds.  In the code, `FileNotFoundError` only
logs and leaves `referenceSpectra = None`, and the `Analyze` arm then
short-circuits with `AnalysisError "Cannot analyze: reference data not
loaded."` and spawns no analysis worker — the command is rejected, not
processed without matches. -/
theorem C6_counterexample_missing_file_rejects_analyze :
    onStartLoad none none none = none ∧
    (handleAnalyze ⟨false, none, none, onStartLoad none none none⟩
      (some (some ()))).2.2 = none ∧
    AnalysisEvent.analysisErrorEvt "Cannot analyze: reference data not loaded." ∈
      (handleAnalyze ⟨false, none, none, onStartLoad none none none⟩
        (some (some ()))).2.1 := by
  refine ⟨rfl, ?_, ?_⟩
  · simp [handleAnalyze, onStartLoad]
  · simp [handleAnalyze, onStartLoad]

/-- Claim C6 (amended): loading fails soft on a *readable* reference
file whose rows are empty, legacy, or corrupt — every such file loads to
a (possibly empty) database, and a subsequent `Analyze` with a decodable
image proceeds into the analysis pipeline with no `AnalysisError`; with
an empty database the match phase simply produces no reference matches.
On a *missing* (unreadable) file, however, the database stays unloaded
and `Analyze` is rejected with an `AnalysisError`. -/
theorem C6_amended_readable_file_loads_and_analyze_proceeds
    (cfgF cfgO : Option ℚ) (rows : List CsvRow) (s : AnalysisState)
    (hcal : s.calibrationInProgress = false)
    (href : s.referenceSpectra = onStartLoad cfgF cfgO (some rows)) :
    (∃ db, s.referenceSpectra = some db) ∧
    (handleAnalyze s (some (some ()))).2.2 =
      some SpawnedWorker.analysisWorker ∧
    (∀ msg, AnalysisEvent.analysisErrorEvt msg ∉
      (handleAnalyze s (some (some ()))).2.1) ∧
    (∀ processed : List ℚ, compareWithReferences [] processed = []) ∧
    (∀ s' : AnalysisState, s'.calibrationInProgress = false →
      s'.referenceSpectra = none →
      (handleAnalyze s' (some (some ()))).2.2 = none) := by
  have hdb : s.referenceSpectra = some (loadReferenceRows cfgF cfgO rows) := by
    rw [href]
    rfl
  refine ⟨⟨loadReferenceRows cfgF cfgO rows, hdb⟩, ?_, ?_, ?_, ?_⟩
  · simp [handleAnalyze, hcal, hdb]
  · intro msg
    simp [handleAnalyze, hcal, hdb]
  · intro processed
    rfl
  · intro s' hcal' href'
    simp [handleAnalyze, hcal', href']

/-- Witness for the amended C6: an empty (readable) file loads an empty
database and a valid `Analyze` proceeds. -/
theorem C6_amended_readable_file_loads_and_analyze_proceeds_witness :
    (handleAnalyze ⟨false, none, none, onStartLoad none none (some [])⟩
      (some (some ()))).2.2 = some SpawnedWorker.analysisWorker :=
  (C6_amended_readable_file_loads_and_analyze_proceeds none none []
    ⟨false, none, none, onStartLoad none none (some [])⟩ rfl rfl).2.1

/-! ### Claim C9 : guaranteed illumination release, soft timeout -/

/-- Claim C9: whenever `takePicture` issues an illumination-on request
(exactly the runs where the camera is initialized), an illumination-off
request is also issued and the readiness flag is cleared before the
method returns, regardless of whether the frame capture or the encoding
succeeded or failed; an illumination-ready timeout only logs a warning
and the capture still proceeds — with a successful capture and encode
the picture is returned even though the acknowledgment never came;
without a camera no illumination request is made at all. -/
theorem C9_illumination_always_released_timeout_soft
    (s : CameraState) (lightAck : Bool) (captureResult : Option (List ℚ))
    (encodeResult : EncodeOutcome) :
    (s.cameraOk = true →
      CameraEvent.lightOn ∈
        (takePicture s lightAck captureResult encodeResult).2.1) ∧
    (CameraEvent.lightOn ∈
        (takePicture s lightAck captureResult encodeResult).2.1 →
      CameraEvent.lightOff ∈
        (takePicture s lightAck captureResult encodeResult).2.1 ∧
      (takePicture s lightAck captureResult
        encodeResult).1.lightReady = false) ∧
    (s.cameraOk = true → lightAck = false →
      CameraEvent.warnLightTimeout ∈
        (takePicture s lightAck captureResult encodeResult).2.1 ∧
      CameraEvent.captureAttempt ∈
        (takePicture s lightAck captureResult encodeResult).2.1 ∧
      (∀ frame, captureResult = some frame →
        encodeResult = EncodeOutcome.encoded →
        (takePicture s lightAck captureResult encodeResult).2.2 =
          some frame)) ∧
    (s.cameraOk = false →
      CameraEvent.lightOn ∉
        (takePicture s lightAck captureResult encodeResult).2.1) := by
  by_cases hc : s.cameraOk
  · have hc' : ¬ (s.cameraOk = false) := by simp [hc]
    refine ⟨?_, ?_, ?_, ?_⟩
    · intro _
      rcases captureResult with _ | frame
      · simp [takePicture, hc']
      · rcases encodeResult <;> simp [takePicture, hc']
    · intro _
      rcases captureResult with _ | frame
      · simp [takePicture, hc']
      · rcases encodeResult <;> simp [takePicture, hc']
    · intro _ hack
      subst hack
      refine ⟨?_, ?_, ?_⟩
      · rcases captureResult with _ | frame
        · simp [takePicture, hc']
        · rcases encodeResult <;> simp [takePicture, hc']
      · rcases captureResult with _ | frame
        · simp [takePicture, hc']
        · rcases encodeResult <;> simp [takePicture, hc']
      · intro frame hframe henc
        subst hframe
        subst henc
        simp [takePicture, hc']
    · intro habs
      rw [habs] at hc
      cases hc
  · have hc' : s.cameraOk = false := by simpa using hc
    refine ⟨?_, ?_, ?_, ?_⟩
    · intro habs
      rw [habs] at hc
      simp at hc
    · intro hmem
      rw [takePicture, if_pos hc'] at hmem
      simp at hmem
    · intro habs
      rw [habs] at hc
      simp at hc
    · intro _
      rw [takePicture, if_pos hc']
      simp

/-- Witness for C9: with a timed-out acknowledgment and a successful
capture and encode, illumination is turned on and released, the flag is
cleared, the timeout is only a warning, and the frame is returned. -/
theorem C9_illumination_always_released_timeout_soft_witness :
    CameraEvent.lightOn ∈
      (takePicture ⟨true, true, false⟩ false (some [5]) .encoded).2.1 ∧
    CameraEvent.lightOff ∈
      (takePicture ⟨true, true, false⟩ false (some [5]) .encoded).2.1 ∧
    (takePicture ⟨true, true, false⟩ false (some [5]) .encoded).1.lightReady =
      false ∧
    CameraEvent.warnLightTimeout ∈
      (takePicture ⟨true, true, false⟩ false (some [5]) .encoded).2.1 ∧
    (takePicture ⟨true, true, false⟩ false (some [5]) .encoded).2.2 =
      some [5] := by
  have h := C9_illumination_always_released_timeout_soft
    ⟨true, true, false⟩ false (some [5]) .encoded
  have hon := h.1 rfl
  have hoff := h.2.1 hon
  have htime := h.2.2.1 rfl rfl
  exact ⟨hon, hoff.1, hoff.2, htime.1,
    htime.2.2 [5] rfl rfl⟩

end Raspiscope
